import Mathlib

/-!
Verification of the core algorithmic services of the eduspherequiz repository:
the keyword-based auto-grading engine (`src/services/autoGrading.ts`) and the
PDF quiz extraction engines (`src/services/realPdfParser.ts`, which contains a
page-image-oriented parser variant and a whole-text block-segmenting parser
variant).

The TypeScript code is shallowly embedded: JavaScript strings become Lean
`String`/`List Char`, JavaScript numbers become `ℚ` (exact rational
arithmetic; all quantities involved are small decimals where double rounding
is not at issue, and `Math.round` is modelled as floor(x + 1/2), its
round-half-up behaviour), and the specific regular expressions used by the
parser are compiled by hand into executable scanning functions that follow
the leftmost-match of the JS regex engine, greedy/lazy and lookahead semantics for
those concrete patterns.
-/

namespace EduQuiz

/-- ASCII word character, the `\w` class of the JS regexes: letters, digits,
underscore. -/
def isWordChar (c : Char) : Bool :=
  c.isAlphanum || c == '_'

/-- Whitespace, the `\s` class of the JS regexes (restricted to ASCII forms,
which covers all text handled in this development). -/
def isSpaceChar (c : Char) : Bool :=
  c == ' ' || c == '\t' || c == '\n' || c == '\r' || c == '\x0b' || c == '\x0c'

/-- Model of `replace(/\s+/g, ' ')`: collapse every run of whitespace into a single
space.  The boolean argument records whether the previous character was part
of a whitespace run. -/
def collapseSpacesAux : Bool → List Char → List Char
  | _, [] => []
  | prevSpace, c :: rest =>
    if isSpaceChar c then
      if prevSpace then collapseSpacesAux true rest
      else ' ' :: collapseSpacesAux true rest
    else c :: collapseSpacesAux false rest

/-- JS `String.prototype.trim`: drop whitespace from both ends. -/
def trimChars (cs : List Char) : List Char :=
  ((cs.dropWhile isSpaceChar).reverse.dropWhile isSpaceChar).reverse

/-- JS `String.prototype.split` with a single-character separator: keeps
empty fields, so splitting the empty string yields `[[]]`. -/
def splitOnCharAux (sep : Char) (cur : List Char) : List Char → List (List Char)
  | [] => [cur.reverse]
  | c :: rest =>
    if c == sep then cur.reverse :: splitOnCharAux sep [] rest
    else splitOnCharAux sep (c :: cur) rest

def splitOnChar (sep : Char) (cs : List Char) : List (List Char) :=
  splitOnCharAux sep [] cs

/-- JS `String.prototype.includes`: `containsSeq needle hay` is true iff
`needle` occurs contiguously inside `hay`; the empty needle always occurs. -/
def containsSeq (needle : List Char) : List Char → Bool
  | [] => needle.isEmpty
  | c :: rest => needle.isPrefixOf (c :: rest) || containsSeq needle rest

/-- Numeric value of a digit string, the effect of JS `parseInt` on the
captured `\d+` group. -/
def natOfDigits (ds : List Char) : Nat :=
  ds.foldl (fun a c => 10 * a + (c.toNat - '0'.toNat)) 0

/-! ## Auto-grading service (`src/services/autoGrading.ts`) -/

/-- Character-level body of `normalizeText`: lowercase, replace every
character that is neither `\w` nor `\s` by a space, collapse whitespace runs,
trim. -/
def normChars (cs : List Char) : List Char :=
  trimChars (collapseSpacesAux false
    ((cs.map Char.toLower).map (fun c => if isWordChar c || isSpaceChar c then c else ' ')))

/-- Function `normalizeText` from autoGrading.ts. -/
def normalizeText (text : String) : String :=
  String.mk (normChars text.data)

/-- Function `containsKeyword` from autoGrading.ts: exact substring match on the
normalized strings, else the permissive word-overlap fallback (every keyword
word must be a substring of some answer word or vice versa). -/
def containsKeyword (answer keyword : String) : Bool :=
  let normalizedAnswer := normalizeText answer
  let normalizedKeyword := normalizeText keyword
  if containsSeq normalizedKeyword.data normalizedAnswer.data then true
  else
    let keywordWords := splitOnChar ' ' normalizedKeyword.data
    let answerWords := splitOnChar ' ' normalizedAnswer.data
    keywordWords.all (fun keywordWord =>
      answerWords.any (fun answerWord =>
        containsSeq keywordWord answerWord || containsSeq answerWord keywordWord))

/-- Record `KeywordMatch` from autoGrading.ts. -/
structure KeywordMatch where
  keyword : String
  found : Bool
  weight : ℚ
deriving DecidableEq

/-- Record `GradingResult` from autoGrading.ts. -/
structure GradingResult where
  score : ℚ
  maxScore : ℚ
  percentage : ℚ
  matchedKeywords : List KeywordMatch
deriving DecidableEq

/-- Model of `Math.round(x * 100) / 100`: round to 2 decimal places, halves toward
positive infinity (JS `Math.round` semantics). -/
def round2 (x : ℚ) : ℚ :=
  (⌊x * 100 + 1 / 2⌋ : ℚ) / 100

/-- Model of `keywordWeightage[keyword] || 1`: a missing entry and the falsy number 0
both default to weight 1. -/
def keywordWeight (keywordWeightage : String → Option ℚ) (keyword : String) : ℚ :=
  match keywordWeightage keyword with
  | some v => if v = 0 then 1 else v
  | none => 1

/-- Function `gradeShortAnswer` from autoGrading.ts.  The `keywordWeightage` record is
modelled as a partial map from keyword to number. -/
def gradeShortAnswer (studentAnswer : String) (expectedKeywords : List String)
    (keywordWeightage : String → Option ℚ) (totalPoints : ℚ) : GradingResult :=
  if studentAnswer = "" ∨ expectedKeywords = [] then
    { score := 0, maxScore := totalPoints, percentage := 0, matchedKeywords := [] }
  else
    let matchList := expectedKeywords.map (fun keyword =>
      { keyword := keyword
        found := containsKeyword studentAnswer keyword
        weight := keywordWeight keywordWeightage keyword : KeywordMatch })
    let earnedPoints := (matchList.map (fun m => if m.found then m.weight else 0)).sum
    let maxPossiblePoints := (matchList.map (fun m => m.weight)).sum
    let normalizedScore :=
      if 0 < maxPossiblePoints then earnedPoints / maxPossiblePoints * totalPoints else 0
    { score := round2 normalizedScore
      maxScore := totalPoints
      percentage := if 0 < maxPossiblePoints then earnedPoints / maxPossiblePoints * 100 else 0
      matchedKeywords := matchList }

set_option linter.unusedVariables false in
/-- Function `requiresManualReview` from autoGrading.ts; the `reviewThreshold`
parameter is accepted and ignored, exactly as in the source. -/
def requiresManualReview (gradingResult : GradingResult) (reviewThreshold : ℚ) : Bool :=
  if 40 ≤ gradingResult.percentage ∧ gradingResult.percentage ≤ 60 then true else false

/-! ## PDF parser records (`src/services/realPdfParser.ts`)

The `ParsedQuestion` interface.  The binary image blob is not representable;
`image_filename` models the `image_data` field by its filename (present iff
`image_data` is present in the source record). -/

structure ParsedQuestion where
  question_text : String
  options : List String
  correct_answer : Option String
  points : Nat
  order_index : Int
  has_image : Bool
  image_filename : Option String
deriving DecidableEq

/-- Interface `ParsedQuiz` of realPdfParser.ts. -/
structure ParsedQuiz where
  title : String
  description : String
  duration : Nat
  questions : List ParsedQuestion
deriving DecidableEq

instance {ε α : Type} [DecidableEq ε] [DecidableEq α] : DecidableEq (Except ε α) := fun a b =>
  match a, b with
  | Except.ok x, Except.ok y =>
    if h : x = y then Decidable.isTrue (by rw [h]) else Decidable.isFalse (by simp [h])
  | Except.error e, Except.error f =>
    if h : e = f then Decidable.isTrue (by rw [h]) else Decidable.isFalse (by simp [h])
  | Except.ok _, Except.error _ => Decidable.isFalse (by simp)
  | Except.error _, Except.ok _ => Decidable.isFalse (by simp)

/-! ## Whole-text block-segmenting parser (second `RealPDFParser` variant)

`parseQuizFromPDF` of the block-based variant: after page text accumulation
it is a pure function of the accumulated text, embedded here from the split
at `/(?=^\d+\.\s)/m` through option/answer extraction, validation, and final
assembly.  Each regular expression of the source is compiled by hand into a
scanning function with the semantics the JS engine gives that pattern. -/

/-- Lookahead `\d+\.\s`: one or more digits, a literal dot, one whitespace
character. -/
def lookaheadNumDot (cs : List Char) : Bool :=
  let digits := cs.takeWhile Char.isDigit
  !digits.isEmpty &&
    (match cs.drop digits.length with
     | '.' :: c :: _ => isSpaceChar c
     | _ => false)

/-- Model of `allText.split(/(?=^\d+\.\s)/m)`: split before every line start that
begins a question-number marker.  With the `m` flag, `^` matches at the
string start and after each newline; a zero-width match at the segment start
produces no empty piece, so the split points are exactly the positions
directly after a `'\n'` where `\d+\.\s` looks ahead. -/
def splitBlocksAux : List Char → List Char → List (List Char)
  | acc, [] => [acc.reverse]
  | acc, c :: rest =>
    if c == '\n' && lookaheadNumDot rest then
      (c :: acc).reverse :: splitBlocksAux [] rest
    else splitBlocksAux (c :: acc) rest

def splitQuestionBlocks (allText : String) : List String :=
  (splitBlocksAux [] allText.data).map String.mk

/-- Regex `/^(\d+)\./`: leading digit run followed by a dot; returns the digits and
the remainder after the dot. -/
def matchLeadingNum (cs : List Char) : Option (List Char × List Char) :=
  let digits := cs.takeWhile Char.isDigit
  if digits.isEmpty then none
  else
    match cs.drop digits.length with
    | '.' :: rest => some (digits, rest)
    | _ => none

/-- Lazy capture `(.+?)(?=look|$)` (with the `s` flag): consume at least one
character, then stop at the first position where `look` succeeds or at the
end of the input.  `acc` holds the consumed characters in reverse. -/
def lazyGo (look : List Char → Bool) (acc : List Char) : List Char → List Char
  | [] => acc.reverse
  | c :: rest => if look (c :: rest) then acc.reverse else lazyGo look (c :: acc) rest

/-- Pattern `\s*(.+?)(?=look|$)` applied to `after`: greedy whitespace skip, then the
lazy capture.  When everything left is whitespace the greedy `\s*` backtracks
one character so that `.+?` can consume it (the capture is then that single
trailing whitespace character). -/
def matchTail (look : List Char → Bool) (after : List Char) : Option (List Char) :=
  match after with
  | [] => none
  | _ :: _ =>
    match after.dropWhile isSpaceChar with
    | [] =>
      match after.reverse with
      | c :: _ => some [c]
      | [] => none
    | c :: rest => some (lazyGo look [c] rest)

/-- Capture cleanup `.trim().replace(/\s+/g, ' ')` as applied by the parser to captures. -/
def wsClean (cs : List Char) : String :=
  String.mk (trimChars (collapseSpacesAux false cs))

/-- Lookahead `\s*[A-D]\.` of the question-text regex. -/
def lookOptMarker (cs : List Char) : Bool :=
  match cs.dropWhile isSpaceChar with
  | l :: '.' :: _ => l == 'A' || l == 'B' || l == 'C' || l == 'D'
  | _ => false

/-- Lookahead `\s*[X][\.\)]|Answer` used by the option regexes for options
A, B and C, where `X` is the next option letter. -/
def lookNext (letter : Char) (cs : List Char) : Bool :=
  (match cs.dropWhile isSpaceChar with
   | l :: d :: _ => l == letter && (d == '.' || d == ')')
   | _ => false) ||
  List.isPrefixOf "Answer".data cs

/-- Test `\d+\.` at the start of a character list. -/
def startsNumDot (cs : List Char) : Bool :=
  let digits := cs.takeWhile Char.isDigit
  !digits.isEmpty && (cs.drop digits.length).head? == some '.'

/-- Lookahead `\s*(?:Answer|Correct|\d+\.)` of the option-D regex. -/
def lookAfterD (cs : List Char) : Bool :=
  let t := cs.dropWhile isSpaceChar
  List.isPrefixOf "Answer".data t || List.isPrefixOf "Correct".data t || startsNumDot t

/-- Scan for the first successful match of
`[X][\.\)]\s*(.+?)(?=look|$)` and return its capture group. -/
def findOptionCap (letter : Char) (look : List Char → Bool) : List Char → Option (List Char)
  | [] => none
  | c :: rest =>
    if c == letter && (rest.head? == some '.' || rest.head? == some ')') then
      match matchTail look rest.tail with
      | some cap => some cap
      | none => findOptionCap letter look rest
    else findOptionCap letter look rest

/-- One option extraction line of the source:
`block.match(...)?.[1]?.trim().replace(/\s+/g, ' ') || ''`. -/
def extractOption (letter : Char) (look : List Char → Bool) (cs : List Char) : String :=
  match findOptionCap letter look cs with
  | some cap => wsClean cap
  | none => ""

/-- Case-insensitive literal prefix test (`pat` is given in lowercase). -/
def matchesCIAt (pat : List Char) : List Char → Bool
  | [] => pat.isEmpty
  | c :: rest =>
    match pat with
    | [] => true
    | p :: ps => p == c.toLower && matchesCIAt ps rest

/-- Tail `\s*:?\s*([A-D])` (case-insensitive) of the answer-marker regex,
returning the captured letter uppercased as the source does. -/
def answerTail (rest : List Char) : Option Char :=
  let r1 := rest.dropWhile isSpaceChar
  let r2 := match r1 with
    | ':' :: t => t
    | _ => r1
  let r3 := r2.dropWhile isSpaceChar
  match r3 with
  | c :: _ =>
    let u := c.toUpper
    if u == 'A' || u == 'B' || u == 'C' || u == 'D' then some u else none
  | [] => none

/-- Try the answer-marker regex `(?:Answer|Correct)\s*:?\s*([A-D])/i` at one
position. -/
def answerAt (cs : List Char) : Option Char :=
  if matchesCIAt "answer".data cs then answerTail (cs.drop 6)
  else if matchesCIAt "correct".data cs then answerTail (cs.drop 7)
  else none

/-- Scan `block.match(/(?:Answer|Correct)\s*:?\s*([A-D])/i)`: first position where
the marker matches. -/
def findAnswer : List Char → Option Char
  | [] => none
  | c :: rest =>
    match answerAt (c :: rest) with
    | some l => some l
    | none => findAnswer rest

/-- The `correct_answer` assignment of the block parser: the option selected
by the answer letter, defaulting to `options[0]` via `correctAnswer ||
options[0]` when no marker was found. -/
def blockCorrectAnswer (cs : List Char) (options : List String) : Option String :=
  let correctAnswer :=
    match findAnswer cs with
    | some letter => options.getD (letter.toNat - 'A'.toNat) ""
    | none => ""
  some (if correctAnswer == "" then options.getD 0 "" else correctAnswer)

/-- The per-block body of the extraction loop (lines 359–409 of the block
variant): number match, question-text match, four option extractions,
validation (`continue` becomes `none`), answer extraction, record assembly. -/
def parseBlock (block : String) : Option ParsedQuestion :=
  let cs := block.data
  if (trimChars cs).isEmpty then none
  else
    match matchLeadingNum cs with
    | none => none
    | some (digits, rest) =>
      match matchTail lookOptMarker rest with
      | none => none
      | some cap =>
        let questionText := wsClean cap
        let optionA := extractOption 'A' (lookNext 'B') cs
        let optionB := extractOption 'B' (lookNext 'C') cs
        let optionC := extractOption 'C' (lookNext 'D') cs
        let optionD := extractOption 'D' lookAfterD cs
        let options := [optionA, optionB, optionC, optionD]
        if questionText == "" || options.any (fun opt => opt == "") then none
        else
          some { question_text := questionText
                 options := options
                 correct_answer := blockCorrectAnswer cs options
                 points := 1
                 order_index := (natOfDigits digits : Int) - 1
                 has_image := false
                 image_filename := none }

/-- The extraction loop over all blocks. -/
def extractQuestions (allText : String) : List ParsedQuestion :=
  (splitQuestionBlocks allText).filterMap parseBlock

/-- Model of `questions.sort((a, b) => a.order_index - b.order_index)`: JS sort is
specified stable, so with this comparator it is the stable sort by
`order_index`, i.e. insertion sort under `≤` on `order_index`. -/
def sortQuestions (qs : List ParsedQuestion) : List ParsedQuestion :=
  List.insertionSort (fun a b => a.order_index ≤ b.order_index) qs

/-- Final quiz assembly of the block variant, with its default title and
description. -/
def assembleQuiz (questions : List ParsedQuestion)
    (quizTitle quizDescription : Option String) : ParsedQuiz :=
  { title := quizTitle.getD "Imported Quiz"
    description := quizDescription.getD "Quiz imported from PDF"
    duration := 90
    questions := sortQuestions questions }

/-- The text-level behaviour of `parseQuizFromPDF` (block variant): extract,
fail on an empty result, assemble. -/
def parseQuizFromText (allText : String)
    (quizTitle quizDescription : Option String) : Except String ParsedQuiz :=
  let questions := extractQuestions allText
  if questions.isEmpty then
    Except.error "No questions detected in the PDF."
  else
    Except.ok (assembleQuiz questions quizTitle quizDescription)

/-! ## Page-image parser (first `RealPDFParser` variant)

The per-page body of the page-oriented variant (lines 61–144): it always
renders the page as an image and attaches it, and falls back to the literal
placeholder options A/B/C/D when option extraction does not yield exactly 4
options.  The page rasterisation itself is I/O; the emitted record carries
`has_image := true` and the generated filename. -/

/-- Regex `/^\s*(\d+)\.\s*(.*)$/` applied to one (already trimmed) line: returns
the digit group and the trimmed remainder group. -/
def matchNumLine (line : List Char) : Option (List Char × List Char) :=
  let l1 := line.dropWhile isSpaceChar
  let digits := l1.takeWhile Char.isDigit
  if digits.isEmpty then none
  else
    match l1.drop digits.length with
    | '.' :: rest => some (digits, trimChars (rest.dropWhile isSpaceChar))
    | _ => none

/-- Stop condition of the question-text gathering loop:
`/^[A-D]\.\s/` or `/^\s*\d+\.\s/`. -/
def stopLineV1 (line : List Char) : Bool :=
  (match line with
   | l :: '.' :: c :: _ => (l == 'A' || l == 'B' || l == 'C' || l == 'D') && isSpaceChar c
   | _ => false) ||
  (let l1 := line.dropWhile isSpaceChar
   let digits := l1.takeWhile Char.isDigit
   !digits.isEmpty &&
     (match l1.drop digits.length with
      | '.' :: c :: _ => isSpaceChar c
      | _ => false))

/-- First line carrying a question-number marker, with the lines after it. -/
def findFirstNumLine : List (List Char) → Option (List Char × List Char × List (List Char))
  | [] => none
  | l :: ls =>
    match matchNumLine l with
    | some (digits, rest) => some (digits, rest, ls)
    | none => findFirstNumLine ls

/-- Lazy character class capture `([^A-D]*?)(?=stop)` of the page-variant
option regex: consume characters none of which are capital A–D, stopping at
the first position where `stop` succeeds; fail if a capital A–D is hit
first.  (`stop` includes the end of input for every letter.) -/
def goV1 (stop : List Char → Bool) (acc : List Char) : List Char → Option (List Char)
  | [] => if stop [] then some acc.reverse else none
  | c :: rest =>
    if stop (c :: rest) then some acc.reverse
    else if c == 'A' || c == 'B' || c == 'C' || c == 'D' then none
    else goV1 stop (c :: acc) rest

/-- Lookahead of the page-variant option regex: `[A-D]\.|$` for options A, B
and C, `$` alone for option D. -/
def stopV1For (letter : Char) (cs : List Char) : Bool :=
  match cs with
  | [] => true
  | l :: '.' :: _ =>
    letter != 'D' && (l == 'A' || l == 'B' || l == 'C' || l == 'D')
  | _ => false

/-- Scan for the first successful match of the page-variant option regex
`X\.\s*([^A-D]*?)(?=stop)` and return its capture. -/
def findOptionV1 (letter : Char) (stop : List Char → Bool) : List Char → Option (List Char)
  | [] => none
  | c :: rest =>
    if c == letter && rest.head? == some '.' then
      match goV1 stop [] (rest.tail.dropWhile isSpaceChar) with
      | some cap => some cap
      | none => findOptionV1 letter stop rest
    else findOptionV1 letter stop rest

/-- The option-collection loop of the page variant: for each letter in
order, match the regex against the whole page text, clean the capture, and
keep it only when it is non-empty and does not look like a following
question number. -/
def pageOptions (cs : List Char) : List String :=
  ['A', 'B', 'C', 'D'].filterMap (fun letter =>
    match findOptionV1 letter (stopV1For letter) cs with
    | none => none
    | some cap =>
      let cleanOption := wsClean cap
      if cleanOption != "" && !startsNumDot cleanOption.data then some cleanOption
      else none)

/-- The per-page body of the page-oriented `parseQuizFromPDF` variant as a
function of the extracted page text. -/
def parsePage (pageText : String) : Option ParsedQuestion :=
  let lines := ((splitOnChar '\n' pageText.data).map trimChars).filter (fun l => !l.isEmpty)
  match findFirstNumLine lines with
  | none => none
  | some (digits, restText, laterLines) =>
    let questionNum := natOfDigits digits
    if questionNum = 0 then none
    else
      let extra := laterLines.takeWhile (fun l => !stopLineV1 l)
      let questionText := trimChars (extra.foldl (fun acc l => acc ++ (' ' :: l)) restText)
      if questionText.isEmpty then none
      else
        let options := pageOptions pageText.data
        some { question_text := String.mk questionText
               options := if options.length = 4 then options else ["A", "B", "C", "D"]
               correct_answer := some ""
               points := 2
               order_index := (questionNum : Int) - 1
               has_image := true
               image_filename := some ("question_" ++ toString questionNum ++ ".png") }

/-! ## Helper lemmas -/

/-- The empty needle is found in every haystack (JS `includes("")`). -/
lemma containsSeq_nil (hay : List Char) : containsSeq [] hay = true := by
  cases hay <;> simp [containsSeq, List.isPrefixOf]

/-- When the student answer normalizes to the empty string, every keyword is
reported found: either the keyword also normalizes to the empty string (then
the substring test succeeds), or the word-overlap fallback runs with the
single empty answer word, which is a substring of every keyword word. -/
lemma containsKeyword_of_blank (r k : String) (h : normalizeText r = "") :
    containsKeyword r k = true := by
  unfold containsKeyword
  rw [h]
  dsimp only
  split
  · rfl
  · simp only [splitOnChar, splitOnCharAux, List.all_eq_true, List.any_eq_true]
    intro kw _
    refine ⟨[], List.mem_singleton.mpr rfl, ?_⟩
    rw [containsSeq_nil kw]
    simp

/-- Positivity of the effective keyword weight under positive rubric
weights. -/
lemma keywordWeight_pos (w : String → Option ℚ) (hw : ∀ k v, w k = some v → 0 < v)
    (k : String) : 0 < keywordWeight w k := by
  unfold keywordWeight
  cases hwk : w k with
  | none => norm_num
  | some v =>
    by_cases hv : v = 0
    · simp [hv]
    · simpa [hv] using hw k v hwk

/-- Core full-credit computation: when the answer is non-empty, the keyword
list is non-empty with positive weights, and every keyword is found, the
grader reports percentage 100, score `round2 totalPoints`, and every match
flagged found. -/
lemma grade_all_found (r : String) (keywords : List String) (w : String → Option ℚ) (P : ℚ)
    (hr : r ≠ "") (hk : keywords ≠ []) (hw : ∀ k v, w k = some v → 0 < v)
    (hfound : ∀ k ∈ keywords, containsKeyword r k = true) :
    (gradeShortAnswer r keywords w P).percentage = 100 ∧
    (gradeShortAnswer r keywords w P).score = round2 P ∧
    (gradeShortAnswer r keywords w P).matchedKeywords.all (fun m => m.found) = true := by
  have hcond : ¬(r = "" ∨ keywords = []) := by
    rintro (h | h)
    · exact hr h
    · exact hk h
  have hmap :
      keywords.map (fun k =>
        if containsKeyword r k then keywordWeight w k else 0) =
      keywords.map (fun k => keywordWeight w k) :=
    List.map_congr_left (fun k hkmem => by rw [hfound k hkmem]; simp)
  have hpos : 0 < (keywords.map (fun k => keywordWeight w k)).sum := by
    refine List.sum_pos _ (fun x hx => ?_) ?_
    · obtain ⟨k, _, rfl⟩ := List.mem_map.mp hx
      exact keywordWeight_pos w hw k
    · intro hnil
      exact hk (List.map_eq_nil_iff.mp hnil)
  have hne : (keywords.map (fun k => keywordWeight w k)).sum ≠ 0 := ne_of_gt hpos
  unfold gradeShortAnswer
  rw [if_neg hcond]
  simp only [List.map_map, Function.comp_def]
  refine ⟨?_, ?_, ?_⟩
  · rw [hmap, if_pos hpos, div_self hne, one_mul]
  · rw [hmap, if_pos hpos, div_self hne, one_mul]
  · simp only [List.all_eq_true, List.mem_map]
    rintro m ⟨k, hkmem, rfl⟩
    exact hfound k hkmem

/-- Length of a `filterMap` as a count of successes. -/
lemma length_filterMap_eq_countP {α β : Type} (f : α → Option β) (l : List α) :
    (l.filterMap f).length = l.countP (fun a => (f a).isSome) := by
  induction l with
  | nil => rfl
  | cons a l ih =>
    cases hfa : f a with
    | none => simp [List.filterMap_cons, List.countP_cons, hfa, ih]
    | some b => simp [List.filterMap_cons, List.countP_cons, hfa, ih]

/-- Every record emitted by the block parser passed the option validation:
all four options are non-empty. -/
lemma parseBlock_options_nonempty {b : String} {q : ParsedQuestion}
    (h : parseBlock b = some q) : q.options.all (fun o => !(o == "")) = true := by
  simp only [parseBlock] at h
  split at h
  · exact Option.noConfusion h
  · split at h
    · exact Option.noConfusion h
    · split at h
      · exact Option.noConfusion h
      · split at h
        · exact Option.noConfusion h
        · rename_i hguard
          injection h with h
          subst h
          simp only [Bool.or_eq_true, not_or, Bool.not_eq_true] at hguard
          have hany := hguard.2
          simp only [List.all_eq_true, Bool.not_eq_true']
          intro o ho
          by_contra hcontra
          rw [Bool.not_eq_false] at hcontra
          exact absurd (List.any_eq_true.mpr ⟨o, ho, hcontra⟩) (by rw [hany]; simp)

/-- Fallback `correctAnswer || options[0]`: with no answer marker the
stored correct answer is the first option. -/
lemma blockCorrectAnswer_of_none {cs : List Char} {opts : List String}
    (hf : findAnswer cs = none) :
    blockCorrectAnswer cs opts = some (opts.getD 0 "") := by
  simp [blockCorrectAnswer, hf]

/-- Field structure of every record emitted by the block parser. -/
lemma parseBlock_fields {b : String} {q : ParsedQuestion}
    (h : parseBlock b = some q) :
    q.correct_answer = blockCorrectAnswer b.data q.options ∧
    q.has_image = false ∧ q.points = 1 := by
  simp only [parseBlock] at h
  split at h
  · exact Option.noConfusion h
  · split at h
    · exact Option.noConfusion h
    · split at h
      · exact Option.noConfusion h
      · split at h
        · exact Option.noConfusion h
        · injection h with h
          subst h
          exact ⟨rfl, rfl, rfl⟩

/-! ## Claim theorems -/

/-- Claim C1: the spec requires `matches(r, "") = false` via an explicit
empty-keyword guard, "to avoid vacuous full-credit".  No such guard exists in
`containsKeyword`: the normalized empty keyword is a substring of every
normalized response, so the matcher returns `true` for every response and for
every keyword that normalizes to the empty string (e.g. `"!!!"`), granting
credit for empty keywords.  This theorem evaluates the code at the failing
inputs and proves the behaviour holds for all responses. -/
theorem C1_empty_keyword_matches :
    (∀ r : String, containsKeyword r "" = true) ∧
    containsKeyword "hello" "" = true ∧
    normalizeText "!!!" = "" ∧ containsKeyword "hello" "!!!" = true := by
  refine ⟨fun r => ?_, by decide, by decide, by decide⟩
  have h : containsSeq (normalizeText "").data (normalizeText r).data = true := by
    rw [show (normalizeText "").data = [] from rfl]
    exact containsSeq_nil _
  unfold containsKeyword
  dsimp only
  rw [if_pos h]

/-- Claim C3: a non-empty response whose normalization is empty (spaces or
punctuation only) defeats the empty-response guard (which tests only the
literal empty string), and the word-overlap fallback then reports every
keyword of a rubric (non-empty keyword list, positive weights) as found,
awarding percentage 100 and full credit up to 2-decimal rounding. -/
theorem C3_blank_normalization_full_credit
    (r : String) (keywords : List String) (w : String → Option ℚ) (P : ℚ)
    (hr : r ≠ "") (hn : normalizeText r = "") (hk : keywords ≠ [])
    (hw : ∀ k v, w k = some v → 0 < v) :
    (gradeShortAnswer r keywords w P).matchedKeywords.all (fun m => m.found) = true ∧
    (gradeShortAnswer r keywords w P).percentage = 100 ∧
    (gradeShortAnswer r keywords w P).score = round2 P := by
  obtain ⟨h1, h2, h3⟩ :=
    grade_all_found r keywords w P hr hk hw (fun k _ => containsKeyword_of_blank r k hn)
  exact ⟨h3, h1, h2⟩

/-- Witness for C3 at the whitespace-only response `"   "`. -/
theorem C3_witness :
    (gradeShortAnswer "   " ["water"] (fun _ => none) 5).matchedKeywords.all
      (fun m => m.found) = true ∧
    (gradeShortAnswer "   " ["water"] (fun _ => none) 5).percentage = 100 ∧
    (gradeShortAnswer "   " ["water"] (fun _ => none) 5).score = round2 5 :=
  C3_blank_normalization_full_credit "   " ["water"] (fun _ => none) 5
    (by decide) (by decide) (by decide) (fun _ v h => Option.noConfusion h)

/-- Claim C4: `requiresManualReview` holds exactly on the inclusive band
`40 ≤ percentage ≤ 60`; percentage 40 and 60 require review, 39.99 and 60.01
do not. -/
theorem C4_manual_review_band :
    (∀ (res : GradingResult) (t : ℚ),
      requiresManualReview res t = decide (40 ≤ res.percentage ∧ res.percentage ≤ 60)) ∧
    requiresManualReview
      { score := 4, maxScore := 10, percentage := 40, matchedKeywords := [] } 50 = true ∧
    requiresManualReview
      { score := 6, maxScore := 10, percentage := 60, matchedKeywords := [] } 50 = true ∧
    requiresManualReview
      { score := 4, maxScore := 10, percentage := 3999 / 100, matchedKeywords := [] } 50 = false ∧
    requiresManualReview
      { score := 6, maxScore := 10, percentage := 6001 / 100, matchedKeywords := [] } 50 = false := by
  refine ⟨fun res t => ?_, ?_, ?_, ?_, ?_⟩
  · unfold requiresManualReview
    by_cases h : 40 ≤ res.percentage ∧ res.percentage ≤ 60
    · simp [h]
    · simp [h]
  · norm_num [requiresManualReview]
  · norm_num [requiresManualReview]
  · norm_num [requiresManualReview]
  · norm_num [requiresManualReview]

/-- Claim C5: an empty response or an empty keyword list yields the defined
zero-case result (score 0, percentage 0, maxScore = totalPoints, no matches)
for every weight map and every totalPoints. -/
theorem C5_zero_case (r : String) (keywords : List String) (w : String → Option ℚ) (P : ℚ)
    (h : r = "" ∨ keywords = []) :
    gradeShortAnswer r keywords w P =
      { score := 0, maxScore := P, percentage := 0, matchedKeywords := [] } := by
  unfold gradeShortAnswer
  rw [if_pos h]

/-- Witness for C5 with an empty rubric and a non-empty response. -/
theorem C5_witness :
    gradeShortAnswer "some response" [] (fun _ => none) 10 =
      { score := 0, maxScore := 10, percentage := 0, matchedKeywords := [] } :=
  C5_zero_case "some response" [] (fun _ => none) 10 (Or.inr rfl)

/-- Claim C7 counterexample: with totalPoints `1/200` (0.005, a
representable number) and a rubric whose single keyword is matched, the
score is `round2 (1/200) = 1/100`, not `1/200` — 2-decimal rounding does not
leave every totalPoints unchanged, so `score = P` fails as stated. -/
theorem C7_counterexample :
    (gradeShortAnswer "a" ["a"] (fun _ => none) (1 / 200)).matchedKeywords.all
      (fun m => m.found) = true ∧
    (gradeShortAnswer "a" ["a"] (fun _ => none) (1 / 200)).score = 1 / 100 ∧
    ((1 : ℚ) / 100) ≠ 1 / 200 := by
  refine ⟨by decide, ?_, by norm_num⟩
  simp only [gradeShortAnswer, keywordWeight, round2, List.map, List.sum_cons, List.sum_nil,
    show containsKeyword "a" "a" = true from by decide]
  norm_num [Int.floor_eq_iff]
  rw [if_neg (by decide)]

/-- Claim C7 amended: for a non-empty response and a rubric with at least
one keyword and positive weights, if every keyword is matched then the score
is `round2 totalPoints` — which equals totalPoints exactly when 100·P is an
integer (in particular for all integer point values). -/
theorem C7_amended_full_credit_rounded
    (r : String) (keywords : List String) (w : String → Option ℚ) (P : ℚ)
    (hr : r ≠ "") (hk : keywords ≠ []) (hw : ∀ k v, w k = some v → 0 < v)
    (hfound : ∀ k ∈ keywords, containsKeyword r k = true) :
    (gradeShortAnswer r keywords w P).score = round2 P :=
  (grade_all_found r keywords w P hr hk hw hfound).2.1

/-- Witness for the amended C7. -/
theorem C7_witness :
    (gradeShortAnswer "plants use chlorophyll" ["chlorophyll"] (fun _ => none) 7).score =
      round2 7 :=
  C7_amended_full_credit_rounded "plants use chlorophyll" ["chlorophyll"] (fun _ => none) 7
    (by decide) (by decide) (fun _ v h => Option.noConfusion h) (by decide)

/-- Concrete two-question input whose second block has only 3 discernible
options. -/
def c2Text : String :=
  "1. Good question? A. x B. y C. z D. w Answer: A\n2. Bad question? A. x B. y C. z Answer: A"

/-- Claim C2 counterexample: the block engine detects two question-number
ordinals in `c2Text` but emits only one record — the block with only three
discernible options is dropped (after a console warning), so the output size
does not equal the number of detected ordinals. -/
theorem C2_counterexample :
    (splitQuestionBlocks c2Text).countP (fun b => (matchLeadingNum b.data).isSome) = 2 ∧
    (parseQuizFromText c2Text none none).map (fun pq => pq.questions.length) = Except.ok 1 ∧
    (parseQuizFromText c2Text none none).map (fun pq => pq.questions.length) ≠ Except.ok 2 :=
  ⟨by decide, by decide, by decide⟩

/-- Claim C2 amended: the block engine emits exactly one record per detected
block that passes field validation (question text plus four non-empty parsed
options) and skips the others, so the output size equals the number of
blocks passing validation, and every emitted record carries four genuinely
parsed non-empty options (never placeholders).  Placeholder retention with
`hasImage = true` exists only in the separate page-image parser variant. -/
theorem C2_amended_validated_blocks_only (text : String) :
    (extractQuestions text).length =
      (splitQuestionBlocks text).countP (fun b => (parseBlock b).isSome) ∧
    (extractQuestions text).all (fun q => q.options.all (fun o => !(o == ""))) = true := by
  constructor
  · exact length_filterMap_eq_countP parseBlock (splitQuestionBlocks text)
  · simp only [List.all_eq_true]
    intro q hq
    obtain ⟨b, _, hb⟩ := List.mem_filterMap.mp hq
    exact List.all_eq_true.mp (parseBlock_options_nonempty hb)

/-- The exact single-line input text of the segmenter scenario in the spec. -/
def c6Text : String :=
  "1. What is 2+2? A. 3 B. 4 C. 5 D. 6 Answer: B 2. Capital of France? A. Berlin B. Paris C. Rome D. Madrid Answer: B"

/-- The same text with the two questions separated by a line break. -/
def c6TextNl : String :=
  "1. What is 2+2? A. 3 B. 4 C. 5 D. 6 Answer: B\n2. Capital of France? A. Berlin B. Paris C. Rome D. Madrid Answer: B"

/-- Claim C6 counterexample: on the exact single-line scenario input the
engine yields ONE record, not two — the splitter `/(?=^\d+\.\s)/m` splits
only at line starts, and this input contains no newline before "2.", so both
questions land in one block and only question 1 is extracted. -/
theorem C6_counterexample :
    parseQuizFromText c6Text none none =
      Except.ok
        { title := "Imported Quiz", description := "Quiz imported from PDF", duration := 90
          questions := [{ question_text := "What is 2+2?", options := ["3", "4", "5", "6"],
                          correct_answer := some "4", points := 1, order_index := 0,
                          has_image := false, image_filename := none }] } ∧
    (parseQuizFromText c6Text none none).map (fun pq => pq.questions.length) ≠ Except.ok 2 :=
  ⟨by decide, by decide⟩

/-- Claim C6 amended: with a line break separating the two questions the
engine yields exactly the two claimed records — orderIndex 0 and 1, four
options each, correct answers "4" and "Paris". -/
theorem C6_amended_newline_segmentation :
    parseQuizFromText c6TextNl none none =
      Except.ok
        { title := "Imported Quiz", description := "Quiz imported from PDF", duration := 90
          questions := [{ question_text := "What is 2+2?", options := ["3", "4", "5", "6"],
                          correct_answer := some "4", points := 1, order_index := 0,
                          has_image := false, image_filename := none },
                        { question_text := "Capital of France?",
                          options := ["Berlin", "Paris", "Rome", "Madrid"],
                          correct_answer := some "Paris", points := 1, order_index := 1,
                          has_image := false, image_filename := none }] } := by decide

/-- Claim C8: whenever a block parses successfully and contains no
(case-insensitive) `Answer`/`Correct` marker followed by a letter A–D, the
correct answer of the emitted record is the text of the first option. -/
theorem C8_answer_default_first_option (block : String) (q : ParsedQuestion)
    (hq : parseBlock block = some q) (hfind : findAnswer block.data = none) :
    q.correct_answer = some (q.options.getD 0 "") := by
  rw [(parseBlock_fields hq).1, blockCorrectAnswer_of_none hfind]

/-- Concrete marker-free block for the C8 witness. -/
def c8Block : String := "1. Sample? A. x B. y C. z D. w"

/-- The record the block engine emits for `c8Block`. -/
def c8Record : ParsedQuestion :=
  { question_text := "Sample?", options := ["x", "y", "z", "w"], correct_answer := some "x",
    points := 1, order_index := 0, has_image := false, image_filename := none }

/-- Witness for C8. -/
theorem C8_witness : c8Record.correct_answer = some (c8Record.options.getD 0 "") :=
  C8_answer_default_first_option c8Block c8Record (by decide) (by decide)

/-- Page text whose options cannot be parsed as four discrete choices. -/
def c9PageText : String := "1. Broken question\nA. x\nB. y"

/-- The record the page-image parser emits for `c9PageText`. -/
def c9Record : ParsedQuestion :=
  { question_text := "Broken question", options := ["A", "B", "C", "D"],
    correct_answer := some "", points := 2, order_index := 0,
    has_image := true, image_filename := some "question_1.png" }

/-- Claim C9 counterexample: the page-image fallback record does carry
`hasImage = true`, an attached image and the placeholder options A/B/C/D,
but its correct answer is the empty STRING (the source comment says "Empty
string to satisfy NOT NULL constraint"), not null. -/
theorem C9_counterexample :
    parsePage c9PageText = some c9Record ∧
    (parsePage c9PageText).map (fun q => q.correct_answer) ≠ some none :=
  ⟨by decide, by decide⟩

/-- Claim C9 amended: every record emitted by the page-image parser has
`has_image = true`, an attached image asset, correct answer equal to the
empty string (explicitly NOT null), and options equal to the parsed options
when exactly 4 were found, else the literal placeholders A/B/C/D. -/
theorem C9_amended_page_record_shape (pageText : String) (q : ParsedQuestion)
    (h : parsePage pageText = some q) :
    q.has_image = true ∧ q.image_filename.isSome = true ∧ q.correct_answer = some "" ∧
    q.options = (if (pageOptions pageText.data).length = 4
                 then pageOptions pageText.data else ["A", "B", "C", "D"]) := by
  simp only [parsePage] at h
  split at h
  · exact Option.noConfusion h
  · split at h
    · exact Option.noConfusion h
    · split at h
      · exact Option.noConfusion h
      · injection h with h
        subst h
        exact ⟨rfl, rfl, rfl, rfl⟩

/-- Witness for the amended C9. -/
theorem C9_witness :
    c9Record.has_image = true ∧ c9Record.image_filename.isSome = true ∧
    c9Record.correct_answer = some "" ∧
    c9Record.options = (if (pageOptions c9PageText.data).length = 4
                        then pageOptions c9PageText.data else ["A", "B", "C", "D"]) :=
  C9_amended_page_record_shape c9PageText c9Record (by decide)

/-- Claim C10: quiz assembly sorts by `order_index` (JS stable numeric sort,
modelled as insertion sort): for records with distinct orderIndex 0..N-1 in
any order the result is sorted ascending, has the same length, drops nothing
(it is a permutation of the input), and its orderIndex column is exactly
0..N-1. -/
theorem C10_assembly_sorted_permutation (qs : List ParsedQuestion)
    (h : List.Perm (qs.map (fun q => q.order_index))
      ((List.range qs.length).map (fun n : Nat => (n : Int)))) :
    List.Sorted (fun a b => a.order_index ≤ b.order_index) (sortQuestions qs) ∧
    (sortQuestions qs).length = qs.length ∧
    List.Perm (sortQuestions qs) qs ∧
    (sortQuestions qs).map (fun q => q.order_index) =
      (List.range qs.length).map (fun n : Nat => (n : Int)) := by
  have hperm : List.Perm (sortQuestions qs) qs := List.perm_insertionSort _ qs
  haveI : IsTotal ParsedQuestion (fun a b => a.order_index ≤ b.order_index) :=
    ⟨fun a b => le_total a.order_index b.order_index⟩
  haveI : IsTrans ParsedQuestion (fun a b => a.order_index ≤ b.order_index) :=
    ⟨fun a b c hab hbc => le_trans hab hbc⟩
  have hsorted := List.sorted_insertionSort (fun a b => a.order_index ≤ b.order_index) qs
  refine ⟨hsorted, hperm.length_eq, hperm, ?_⟩
  have hS1 : List.Sorted (fun a b : Int => a ≤ b)
      ((sortQuestions qs).map (fun q => q.order_index)) := by
    rw [List.Sorted, List.pairwise_map]
    exact hsorted
  have hS2 : List.Sorted (fun a b : Int => a ≤ b)
      ((List.range qs.length).map (fun n : Nat => (n : Int))) :=
    List.Pairwise.map (fun n : Nat => (n : Int))
      (fun a b hab => Nat.cast_le.mpr (le_of_lt hab)) (List.pairwise_lt_range qs.length)
  exact List.eq_of_perm_of_sorted ((hperm.map _).trans h) hS1 hS2

/-- Shuffled three-record list for the C10 witness. -/
def c10List : List ParsedQuestion :=
  [{ question_text := "q2", options := ["a", "b", "c", "d"], correct_answer := some "a",
     points := 1, order_index := 2, has_image := false, image_filename := none },
   { question_text := "q0", options := ["a", "b", "c", "d"], correct_answer := some "b",
     points := 1, order_index := 0, has_image := false, image_filename := none },
   { question_text := "q1", options := ["a", "b", "c", "d"], correct_answer := some "c",
     points := 1, order_index := 1, has_image := false, image_filename := none }]

/-- Witness for C10. -/
theorem C10_witness :
    List.Sorted (fun a b => a.order_index ≤ b.order_index) (sortQuestions c10List) ∧
    (sortQuestions c10List).length = c10List.length ∧
    List.Perm (sortQuestions c10List) c10List ∧
    (sortQuestions c10List).map (fun q => q.order_index) =
      (List.range c10List.length).map (fun n : Nat => (n : Int)) :=
  C10_assembly_sorted_permutation c10List (by decide)

end EduQuiz
